import Mathlib

/-!
Shallow embedding of the core logic of the `ai-auth-agent` repository
(a Next.js chat application in which a remote language model requests
browser-side login tools through a structured-output protocol), together
with proofs about the embedded definitions.

Embedded components:
* `src/lib/tool-call-id.ts` — the tool-call identifier codec;
* `src/app/(public)/[chatId]/page.tsx` — the structured-payload extractor,
  the message-stream reconciler, the continuation/visibility filter and the
  tool-call dispatch guard;
* `src/hooks/use-chat-frontend-tools.ts` — the frontend tool registry and
  the `login_user_verify` execute handler;
* `src/app/api/chat/[chatId]/messages/route.ts` (POST) — the server-side
  turn orchestrator's auth-alert injection and continuation handling;
* `src/modules/chat/server.ts` — `verifyChatOwnership`;
* `src/lib/constants.ts` — `AUTH_ALERT_MESSAGE_THRESHOLD`.

JavaScript numbers used by the hash are modelled as mathematical integers
reduced to signed 32-bit range exactly where the JS bitwise operators
(`<<`, `&`) coerce them; JS strings are modelled as Lean `String`s
(length = number of code units for the ASCII data these functions handle).
-/

/-! ## JavaScript primitives used by `src/lib/tool-call-id.ts` -/

/-- Signed 32-bit wrap-around, the coercion applied by the JS bitwise
operators `<<` and `&` (`hash = hash & hash` in `simpleHash`). -/
def toInt32 (n : Int) : Int :=
  (n + 2147483648) % 4294967296 - 2147483648

/-- One iteration of the loop in `simpleHash`
(`hash = (hash << 5) - hash + char; hash = hash & hash`). -/
def hashStep (h : Int) (c : Nat) : Int :=
  toInt32 (toInt32 (h * 32) - h + c)

/-- The accumulated 32-bit hash of the whole string (the `for` loop of
`simpleHash` over `str.charCodeAt(i)`). -/
def jsStringHash (s : String) : Int :=
  s.data.foldl (fun h ch => hashStep h ch.toNat) 0

/-- Base-36 digit character (`0-9` then `a-z`), as produced by JS
`Number.prototype.toString(36)`. -/
def b36digit (n : Nat) : Char :=
  if n < 10 then Char.ofNat (48 + n) else Char.ofNat (87 + n)

/-- Fuel-driven big-endian base-36 digit expansion; the fuel is an upper
bound on the number of division steps and is always supplied as `n + 1`. -/
def b36Aux : Nat → Nat → List Char
  | 0, _ => []
  | fuel + 1, n =>
    if n < 36 then [b36digit n]
    else b36Aux fuel (n / 36) ++ [b36digit (n % 36)]

/-- JS `Math.abs(hash).toString(36)` for a nonnegative integer input. -/
def natToBase36 (n : Nat) : String :=
  String.mk (b36Aux (n + 1) n)

/-- JS `String.prototype.padStart(target, "0")`: left-pad with zeros up to
`target`; a string already at least that long is returned unchanged. -/
def jsPadStart (s : String) (target : Nat) : String :=
  if target ≤ s.length then s
  else String.mk (List.replicate (target - s.length) '0') ++ s

/-- JS `String.prototype.slice(0, stop)` with a possibly negative `stop`
(negative values count from the end of the string, clamped at 0). -/
def jsSlice0 (s : String) (stop : Int) : String :=
  let stopIdx : Int := if stop < 0 then max ((s.length : Int) + stop) 0 else min stop (s.length : Int)
  String.mk (s.data.take stopIdx.toNat)

/-- Embedding of `simpleHash(str, maxLength)` from `src/lib/tool-call-id.ts`:
hash the string, render the absolute value in base 36, then truncate or
zero-pad to `maxLength`. -/
def simpleHash (str : String) (maxLength : Nat) : String :=
  let hashStr := natToBase36 (jsStringHash str).natAbs
  if maxLength < hashStr.length then jsSlice0 hashStr maxLength
  else jsPadStart hashStr maxLength

/-- Embedding of `generateToolCallId(prefix, toolName, messageId)` from
`src/lib/tool-call-id.ts` (`pre` stands for the source's first parameter).
`maxHashLength = Math.max(8, 64 - baseLength)` agrees with the Nat
truncated subtraction used here because `max 8` absorbs every value the JS
subtraction could make negative. -/
def generateToolCallId (pre toolName messageId : String) : String :=
  let baseLength := pre.length + toolName.length + 2
  let maxHashLength := max 8 (64 - baseLength)
  let hash := simpleHash messageId maxHashLength
  let toolCallId := pre ++ "-" ++ toolName ++ "-" ++ hash
  if 64 < toolCallId.length then
    let truncatedHash := jsSlice0 hash (64 - (baseLength : Int))
    pre ++ "-" ++ toolName ++ "-" ++ truncatedHash
  else toolCallId

/-- Embedding of `validateToolCallId` from `src/lib/tool-call-id.ts`. -/
def validateToolCallId (toolCallId : String) : String :=
  if toolCallId.length ≤ 64 then toolCallId
  else jsSlice0 toolCallId 64

/-! ### Helper lemmas about the codec -/

theorem string_mk_length (l : List Char) : (String.mk l).length = l.length := rfl

theorem string_length_append (a b : String) :
    (a ++ b).length = a.length + b.length := by
  cases a; cases b
  show (List.length _) = _
  simp [String.append]

theorem toInt32_lb (n : Int) : -2147483648 ≤ toInt32 n := by
  unfold toInt32
  have h := Int.emod_nonneg (n + 2147483648) (b := 4294967296) (by decide)
  omega

theorem toInt32_ub (n : Int) : toInt32 n < 2147483648 := by
  unfold toInt32
  have h := Int.emod_lt_of_pos (n + 2147483648) (b := 4294967296) (by decide)
  omega

theorem jsStringHash_natAbs_le (s : String) : (jsStringHash s).natAbs ≤ 2147483648 := by
  unfold jsStringHash
  have key : ∀ (l : List Char) (h : Int), -2147483648 ≤ h → h < 2147483648 →
      -2147483648 ≤ l.foldl (fun h ch => hashStep h ch.toNat) h ∧
      l.foldl (fun h ch => hashStep h ch.toNat) h < 2147483648 := by
    intro l
    induction l with
    | nil => intro h h1 h2; exact ⟨h1, h2⟩
    | cons c rest ih =>
      intro h h1 h2
      simpa using ih (hashStep h c.toNat) (toInt32_lb _) (toInt32_ub _)
  have := key s.data 0 (by decide) (by decide)
  omega

theorem b36Aux_length_le (k : Nat) : ∀ (fuel n : Nat), n < fuel → n < 36 ^ k →
    (b36Aux fuel n).length ≤ max 1 k := by
  induction k with
  | zero =>
    intro fuel n hf hk
    have hn : n = 0 := by simpa using hk
    subst hn
    cases fuel with
    | zero => omega
    | succ f => simp [b36Aux]
  | succ k ih =>
    intro fuel n hf hk
    cases fuel with
    | zero => omega
    | succ f =>
      by_cases hsmall : n < 36
      · simp [b36Aux, hsmall]
      · have hdiv : n / 36 < f := by
          have : n / 36 < n := Nat.div_lt_self (by omega) (by omega)
          omega
        have hpow : n / 36 < 36 ^ k := by
          have h36 : 36 ^ (k + 1) = 36 ^ k * 36 := by ring
          exact Nat.div_lt_of_lt_mul (by omega)
        have hlen := ih f (n / 36) hdiv hpow
        have hk1 : 1 ≤ k := by
          by_contra hcon
          have hk0 : k = 0 := by omega
          subst hk0
          simp at hk
          omega
        rw [Nat.max_eq_right hk1] at hlen
        rw [Nat.max_eq_right (by omega : 1 ≤ k + 1)]
        simp only [b36Aux, if_neg hsmall]
        simp only [List.length_append, List.length_cons, List.length_nil]
        omega

theorem natToBase36_length_le_6 (n : Nat) (h : n ≤ 2147483648) :
    (natToBase36 n).length ≤ 6 := by
  have h6 : n < 36 ^ 6 := by
    have : (36 : Nat) ^ 6 = 2176782336 := by norm_num
    omega
  have := b36Aux_length_le 6 (n + 1) n (Nat.lt_succ_self n) h6
  simpa [natToBase36, String.length] using this

theorem simpleHash_length (m : String) (L : Nat) (hL : 8 ≤ L) :
    (simpleHash m L).length = L := by
  unfold simpleHash
  have hlen : (natToBase36 (jsStringHash m).natAbs).length ≤ 6 :=
    natToBase36_length_le_6 _ (jsStringHash_natAbs_le m)
  rw [if_neg (by omega)]
  unfold jsPadStart
  rw [if_neg (by omega)]
  rw [string_length_append, string_mk_length, List.length_replicate]
  omega

theorem jsSlice0_length_of_nonneg (s : String) (e : Int) (h0 : 0 ≤ e)
    (hle : e ≤ (s.length : Int)) : (jsSlice0 s e).length = e.toNat := by
  unfold jsSlice0
  rw [if_neg (by omega)]
  rw [string_mk_length, List.length_take, min_eq_left hle]
  have hdata : s.data.length = s.length := rfl
  omega

theorem concat_id_length (p t h : String) :
    (p ++ "-" ++ t ++ "-" ++ h).length = p.length + t.length + 2 + h.length := by
  simp only [string_length_append]
  have hd : ("-" : String).length = 1 := rfl
  omega

/-- Concrete long inputs for the tool-call id codec: a 40-byte prefix and a
25-byte tool name. -/
def longPrefixC3 : String := String.mk (List.replicate 40 'a')

/-- Concrete long tool name used together with `longPrefixC3`. -/
def longToolNameC3 : String := String.mk (List.replicate 25 'b')

/-- C3 (counterexample): the claim that `generateToolCallId` always returns
at most 64 bytes is false: with a 40-byte prefix and a 25-byte tool name the
returned id has 72 bytes (the final truncation uses `hash.slice(0, 64 -
baseLength)` whose negative argument counts from the end of the hash, so it
fails to shorten the id to 64). -/
theorem generateToolCallId_length_counterexample :
    (generateToolCallId longPrefixC3 longToolNameC3 "x").length = 72 ∧
    64 < (generateToolCallId longPrefixC3 longToolNameC3 "x").length := by
  constructor <;> decide

/-- C3 (amended): whenever `prefix.length + toolName.length + 2 ≤ 64`, the
id returned by `generateToolCallId` has exactly 64 bytes and has the form
`prefix-toolName-hash` where the hash segment exactly fills the remaining
budget (it is the zero-padded base-36 hash when the budget is at least 8,
and a truncation of the 8-byte floor hash otherwise); for longer
prefix/toolName combinations the 64-byte bound fails, as the counterexample
shows. -/
theorem generateToolCallId_spec (pre toolName m : String)
    (h : pre.length + toolName.length + 2 ≤ 64) :
    (generateToolCallId pre toolName m).length = 64 ∧
    ∃ hashSeg : String,
      generateToolCallId pre toolName m = pre ++ "-" ++ toolName ++ "-" ++ hashSeg ∧
      hashSeg.length = 64 - (pre.length + toolName.length + 2) := by
  have hhl : (simpleHash m (max 8 (64 - (pre.length + toolName.length + 2)))).length
      = max 8 (64 - (pre.length + toolName.length + 2)) :=
    simpleHash_length _ _ (le_max_left _ _)
  by_cases hb : pre.length + toolName.length + 2 ≤ 56
  · have hLe : max 8 (64 - (pre.length + toolName.length + 2))
        = 64 - (pre.length + toolName.length + 2) := Nat.max_eq_right (by omega)
    have hidlen : (pre ++ "-" ++ toolName ++ "-" ++
        simpleHash m (max 8 (64 - (pre.length + toolName.length + 2)))).length = 64 := by
      rw [concat_id_length, hhl, hLe]; omega
    have hcond : ¬ 64 < (pre ++ "-" ++ toolName ++ "-" ++
        simpleHash m (max 8 (64 - (pre.length + toolName.length + 2)))).length := by
      rw [hidlen]; omega
    simp only [generateToolCallId, if_neg hcond]
    refine ⟨hidlen, simpleHash m (max 8 (64 - (pre.length + toolName.length + 2))), rfl, ?_⟩
    rw [hhl, hLe]
  · have hLe : max 8 (64 - (pre.length + toolName.length + 2)) = 8 :=
      Nat.max_eq_left (by omega)
    have hcond : 64 < (pre ++ "-" ++ toolName ++ "-" ++
        simpleHash m (max 8 (64 - (pre.length + toolName.length + 2)))).length := by
      rw [concat_id_length, hhl, hLe]; omega
    have hslice : (jsSlice0 (simpleHash m (max 8 (64 - (pre.length + toolName.length + 2))))
        (64 - ((pre.length + toolName.length + 2 : Nat) : Int))).length
        = 64 - (pre.length + toolName.length + 2) := by
      have hres := jsSlice0_length_of_nonneg
        (simpleHash m (max 8 (64 - (pre.length + toolName.length + 2))))
        (64 - ((pre.length + toolName.length + 2 : Nat) : Int))
        (by push_cast; omega)
        (by rw [hhl, hLe]; push_cast; omega)
      rw [hres]
      omega
    simp only [generateToolCallId, if_pos hcond]
    refine ⟨?_, jsSlice0 (simpleHash m (max 8 (64 - (pre.length + toolName.length + 2))))
        (64 - ((pre.length + toolName.length + 2 : Nat) : Int)), rfl, hslice⟩
    rw [concat_id_length, hslice]
    omega

/-- Witness for `generateToolCallId_spec` at the concrete call the dispatch
guard makes (`prefix = "frontend"`, a real tool name, a message id). -/
theorem generateToolCallId_spec_witness :
    ("frontend".length + "login_user_start".length + 2 ≤ 64) ∧
    ((generateToolCallId "frontend" "login_user_start" "msg1").length = 64 ∧
      ∃ hashSeg : String,
        generateToolCallId "frontend" "login_user_start" "msg1"
          = "frontend" ++ "-" ++ "login_user_start" ++ "-" ++ hashSeg ∧
        hashSeg.length = 64 - ("frontend".length + "login_user_start".length + 2)) :=
  ⟨by decide, generateToolCallId_spec "frontend" "login_user_start" "msg1" (by decide)⟩

/-! ## JSON values and a model of ECMAScript `JSON.parse`

The caller-side extractor in `src/app/(public)/[chatId]/page.tsx` re-parses
candidate substrings of the streamed assistant text with `JSON.parse`.
`Json` models parsed JSON values; numeric values keep their source lexeme
(none of the verified properties depends on float arithmetic). -/

inductive Json where
  | null
  | bool (b : Bool)
  | num (lexeme : String)
  | str (s : String)
  | arr (elems : List Json)
  | obj (fields : List (String × Json))

/-- JS `parsed && typeof parsed === "object"`: `null` is falsy and the
other primitives have a different `typeof`; arrays are objects. -/
def isJsObject : Json → Bool
  | .obj _ => true
  | .arr _ => true
  | _ => false

/-- Whether a JSON number lexeme denotes exactly zero (all mantissa digits
are `0`, whatever sign or exponent). -/
def numLexemeIsZero (lex : String) : Bool :=
  (lex.data.takeWhile (fun c => c != 'e' && c != 'E')).all
    (fun c => !c.isDigit || c == '0')

/-- JS truthiness of a parsed JSON value. -/
def jsTruthy : Json → Bool
  | .null => false
  | .bool b => b
  | .num lex => !(numLexemeIsZero lex)
  | .str s => !(s == "")
  | .arr _ => true
  | .obj _ => true

/-- JS property access on a parsed JSON value: only objects expose the
string keys; on duplicate keys `JSON.parse` keeps the last one. -/
def jsGetField (v : Json) (key : String) : Option Json :=
  match v with
  | .obj fields => (fields.reverse.find? (fun kv => kv.1 == key)).map (fun kv => kv.2)
  | _ => none

/-- The JSON whitespace characters of RFC 8259 / ECMA-404. -/
def isJsonWs (c : Char) : Bool := c == ' ' || c == '\t' || c == '\n' || c == '\r'

def skipWs (cs : List Char) : List Char := cs.dropWhile isJsonWs

def hexVal (c : Char) : Option Nat :=
  if '0' ≤ c ∧ c ≤ '9' then some (c.toNat - 48)
  else if 'a' ≤ c ∧ c ≤ 'f' then some (c.toNat - 87)
  else if 'A' ≤ c ∧ c ≤ 'F' then some (c.toNat - 55)
  else none

/-- The two-character escapes accepted inside JSON string literals. -/
def escMap : Char → Option Char
  | '"' => some '"'
  | '\\' => some '\\'
  | '/' => some '/'
  | 'b' => some (Char.ofNat 8)
  | 'f' => some (Char.ofNat 12)
  | 'n' => some '\n'
  | 'r' => some '\r'
  | 't' => some '\t'
  | _ => none

/-- Parse the body of a JSON string literal (the opening quote already
consumed), returning the decoded string and the remaining input. -/
def parseStringBody : List Char → Option (String × List Char)
  | [] => none
  | '"' :: rest => some ("", rest)
  | '\\' :: 'u' :: h1 :: h2 :: h3 :: h4 :: rest =>
    match hexVal h1, hexVal h2, hexVal h3, hexVal h4 with
    | some a, some b, some c, some d =>
      (parseStringBody rest).map
        (fun p => (String.mk (Char.ofNat (a * 4096 + b * 256 + c * 16 + d) :: p.1.data), p.2))
    | _, _, _, _ => none
  | '\\' :: e :: rest =>
    match escMap e with
    | some d => (parseStringBody rest).map (fun p => (String.mk (d :: p.1.data), p.2))
    | none => none
  | c :: rest =>
    if c.toNat < 32 then none
    else (parseStringBody rest).map (fun p => (String.mk (c :: p.1.data), p.2))

def digitSpan (cs : List Char) : List Char × List Char :=
  (cs.takeWhile Char.isDigit, cs.dropWhile Char.isDigit)

/-- Lex a JSON number (`-? int frac? exp?`), returning its lexeme. -/
def parseNumberLex (cs : List Char) : Option (String × List Char) :=
  let negSplit : List Char × List Char :=
    match cs with
    | '-' :: r => (['-'], r)
    | _ => ([], cs)
  let intRes : Option (List Char × List Char) :=
    match negSplit.2 with
    | '0' :: r => some (['0'], r)
    | c :: _ => if c.isDigit then some (digitSpan negSplit.2) else none
    | [] => none
  match intRes with
  | none => none
  | some (intDs, cs2) =>
    let fracRes : Option (List Char × List Char) :=
      match cs2 with
      | '.' :: r =>
        let p := digitSpan r
        if p.1 = [] then none else some ('.' :: p.1, p.2)
      | _ => some ([], cs2)
    match fracRes with
    | none => none
    | some (fracDs, cs3) =>
      let expRes : Option (List Char × List Char) :=
        match cs3 with
        | e :: r =>
          if e == 'e' || e == 'E' then
            let sgnSplit : List Char × List Char :=
              match r with
              | '+' :: r3 => (['+'], r3)
              | '-' :: r3 => (['-'], r3)
              | _ => ([], r)
            let p := digitSpan sgnSplit.2
            if p.1 = [] then none else some (e :: (sgnSplit.1 ++ p.1), p.2)
          else some ([], cs3)
        | [] => some ([], cs3)
      match expRes with
      | none => none
      | some (expDs, cs4) =>
        some (String.mk (negSplit.1 ++ intDs ++ fracDs ++ expDs), cs4)

/-- Defunctionalized parsing modes: a plain value, the element list of an
array (after at least one element is required), or the field list of an
object. -/
inductive ParseMode where
  | val
  | arrElems (acc : List Json)
  | objFields (acc : List (String × Json))

/-- Fuel-driven recursive-descent JSON parser (the fuel only bounds the
recursion depth; `jsonParse` supplies enough for any input). -/
def parseJ : Nat → ParseMode → List Char → Option (Json × List Char)
  | 0, _, _ => none
  | fuel + 1, .val, cs =>
    match skipWs cs with
    | 'n' :: 'u' :: 'l' :: 'l' :: rest => some (.null, rest)
    | 't' :: 'r' :: 'u' :: 'e' :: rest => some (.bool true, rest)
    | 'f' :: 'a' :: 'l' :: 's' :: 'e' :: rest => some (.bool false, rest)
    | '"' :: rest => (parseStringBody rest).map (fun p => (.str p.1, p.2))
    | c :: rest =>
      if c == '\x7b' then
        match skipWs rest with
        | c2 :: rest2 => if c2 == '\x7d' then some (.obj [], rest2)
                         else parseJ fuel (.objFields []) rest
        | [] => none
      else if c == '[' then
        match skipWs rest with
        | c2 :: rest2 => if c2 == ']' then some (.arr [], rest2)
                         else parseJ fuel (.arrElems []) rest
        | [] => none
      else (parseNumberLex (c :: rest)).map (fun p => (.num p.1, p.2))
    | [] => none
  | fuel + 1, .arrElems acc, cs =>
    match parseJ fuel .val cs with
    | none => none
    | some (v, cs2) =>
      match skipWs cs2 with
      | ',' :: rest => parseJ fuel (.arrElems (acc ++ [v])) rest
      | ']' :: rest => some (.arr (acc ++ [v]), rest)
      | _ => none
  | fuel + 1, .objFields acc, cs =>
    match skipWs cs with
    | '"' :: rest =>
      match parseStringBody rest with
      | none => none
      | some (key, cs2) =>
        match skipWs cs2 with
        | ':' :: cs3 =>
          match parseJ fuel .val cs3 with
          | none => none
          | some (v, cs4) =>
            match skipWs cs4 with
            | ',' :: cs5 => parseJ fuel (.objFields (acc ++ [(key, v)])) cs5
            | c :: cs5 => if c == '\x7d' then some (.obj (acc ++ [(key, v)]), cs5) else none
            | [] => none
        | _ => none
    | _ => none

/-- Model of `JSON.parse(s)`: parse one value and require only whitespace
after it; any failure (the exception in JS) is `none`. -/
def jsonParse (s : String) : Option Json :=
  match parseJ (2 * s.length + 4) .val s.data with
  | some (v, rest) => if skipWs rest = [] then some v else none
  | none => none

/-! ## Structured-payload extraction (`extractStructuredFromAssistant`)

From `src/app/(public)/[chatId]/page.tsx` lines 50-109: prefer a structured
(`data`/`object`) part; otherwise scan the first text part for brace-
balanced JSON candidates, preferring the first candidate with a truthy
`frontend_tool_call` and falling back to the first syntactically valid
candidate. -/

/-- JS `String.prototype.trim()`, modelled over the character list (the
position-based `String.trim` of the Lean core library does not reduce in
the kernel). -/
def jsTrim (s : String) : String :=
  String.mk (((s.data.dropWhile Char.isWhitespace).reverse.dropWhile Char.isWhitespace).reverse)

/-- JS `String.prototype.slice(0, n)` for a nonnegative literal `n`,
modelled over the character list. -/
def jsStrTake (s : String) (n : Nat) : String :=
  String.mk (s.data.take n)

/-- Drop characters until the first `{` (JS `indexOf("{")`); `none` when
the text has no further brace. -/
def dropToBrace : List Char → Option (List Char)
  | [] => none
  | c :: rest => if c == '\x7b' then some (c :: rest) else dropToBrace rest

/-- The inner loop of the extractor: starting at a `{`, track nested brace
depth to find the matching close; returns the candidate substring
(braces included) and the remaining input, or `none` when the brace never
closes (`braceEnd === -1`). -/
def braceScan : List Char → Nat → List Char → Option (List Char × List Char)
  | [], _, _ => none
  | c :: rest, depth, acc =>
    let depth1 := if c == '\x7b' then depth + 1 else depth
    if c == '\x7d' then
      if depth1 = 1 then some ((c :: acc).reverse, rest)
      else braceScan rest (depth1 - 1) (c :: acc)
    else braceScan rest depth1 (c :: acc)

/-- The candidate loop of the extractor (`while (startIdx < trimmed.length)`),
fuel-driven: each iteration advances past the scanned candidate, so the
text length bounds the number of iterations. -/
def scanCandidates : Nat → List Char → Option Json → Option Json
  | 0, _, firstValid => firstValid
  | fuel + 1, cs, firstValid =>
    match dropToBrace cs with
    | none => firstValid
    | some suffix =>
      match braceScan suffix 0 [] with
      | none => firstValid
      | some (candidate, after) =>
        match jsonParse (String.mk candidate) with
        | some v =>
          if isJsObject v then
            if ((jsGetField v "frontend_tool_call").map jsTruthy).getD false then some v
            else
              scanCandidates fuel after
                (match firstValid with
                 | some fv => some fv
                 | none => some v)
          else scanCandidates fuel after firstValid
        | none => scanCandidates fuel after firstValid

/-- The text-fallback path of `extractStructuredFromAssistant` (page.tsx
lines 66-108). Total by construction, so the "never throws / terminates on
every input including malformed streaming fragments" part of the contract
is witnessed by this definition itself. -/
def extractStructuredFromText (raw : String) : Option Json :=
  let trimmed := jsTrim raw
  if ¬ trimmed.data.any (fun c => c == '\x7b') then none
  else scanCandidates (trimmed.length + 1) trimmed.data none

/-- Message parts as the client sees them (`UIMessage["parts"]`): text
parts, structured `data`/`object` parts, and anything else (tool parts,
step markers, ...), which the embedded functions never inspect. -/
inductive MsgPart where
  | text (t : String)
  | dataPart (d : Json)
  | objectPart (o : Json)
  | other (partType : String)

/-- The structured-parts preference loop of `extractStructuredFromAssistant`
(page.tsx lines 52-64): first part whose `data`/`object` payload is a JS
record. -/
def firstStructuredPart : List MsgPart → Option Json
  | [] => none
  | .dataPart d :: rest => if isJsObject d then some d else firstStructuredPart rest
  | .objectPart o :: rest => if isJsObject o then some o else firstStructuredPart rest
  | _ :: rest => firstStructuredPart rest

/-- JS `msg.parts.find(isTextPart)?.text ?? ""`. -/
def firstTextOrEmpty (parts : List MsgPart) : String :=
  match parts.findSome? (fun p => match p with | .text t => some t | _ => none) with
  | some t => t
  | none => ""

/-- Full `extractStructuredFromAssistant(msg)`: structured parts first,
then the brace-scanning text fallback. -/
def extractStructuredFromAssistant (parts : List MsgPart) : Option Json :=
  match firstStructuredPart parts with
  | some v => some v
  | none => extractStructuredFromText (firstTextOrEmpty parts)

/-! ## Messages, the visibility filter and the stream reconciler -/

/-- A transcript turn as handled by the client (`UIMessage`): id, role and
parts. -/
structure Msg where
  id : String
  role : String
  parts : List MsgPart

/-- The dedup fingerprint `` `${msg.role}:${content.slice(0, 200)}` `` used
both by the reconciler and by the dispatch guard. -/
def contentHash (m : Msg) : String :=
  m.role ++ ":" ++ jsStrTake (firstTextOrEmpty m.parts) 200

/-- Hidden-id filtering of `processedMessages` (page.tsx lines 177-179):
drop every turn whose id is in the hidden set. -/
def filterHidden (hidden : List String) (msgs : List Msg) : List Msg :=
  msgs.filter (fun m => ¬ m.id ∈ hidden)

/-- The deduplication loop of `processedMessages` (page.tsx lines 181-208):
drop turns whose id was already seen; additionally drop assistant turns
whose content fingerprint was already seen. The id is recorded even when
the turn is dropped by fingerprint, exactly as in the source. -/
def dedupAux (seenIds seenHashes : List String) : List Msg → List Msg
  | [] => []
  | m :: rest =>
    if m.id ∈ seenIds then dedupAux seenIds seenHashes rest
    else
      if m.role = "assistant" then
        if contentHash m ∈ seenHashes then dedupAux (m.id :: seenIds) seenHashes rest
        else m :: dedupAux (m.id :: seenIds) (contentHash m :: seenHashes) rest
      else m :: dedupAux (m.id :: seenIds) seenHashes rest

/-- The `processedMessages` reconciler: the streaming middleware list at
this call site is the constant `[]` (page.tsx line 165), and
`applyStreamingMiddleware` returns its input unchanged for an empty
middleware list (`src/lib/streaming-middleware.ts` lines 35-37), so the
pipeline is hidden-id filtering followed by deduplication. -/
def reconcile (hidden : List String) (msgs : List Msg) : List Msg :=
  dedupAux [] [] (filterHidden hidden msgs)

/-- The fixed sentinel text of the hidden continuation turn (page.tsx
line 286). -/
def internalContinueSentinel : String := "__internal_continue__"

/-- The effect hiding the next continuation turn (page.tsx lines 212-226):
when the suppress-next flag is armed and the newest turn is a user turn
whose trimmed text equals the sentinel, record its id in the hidden set and
disarm the flag. -/
def hideContinueStep (hideNext : Bool) (hiddenIds : List String) (msgs : List Msg) :
    Bool × List String :=
  if ¬ hideNext then (hideNext, hiddenIds)
  else
    match msgs.getLast? with
    | none => (hideNext, hiddenIds)
    | some last =>
      if last.role ≠ "user" then (hideNext, hiddenIds)
      else if jsTrim (firstTextOrEmpty last.parts) = internalContinueSentinel then
        (false, last.id :: hiddenIds)
      else (hideNext, hiddenIds)

/-! ## Server-side turn orchestrator (POST of
`src/app/api/chat/[chatId]/messages/route.ts`) -/

/-- Route lines 376-379: a tool continuation only suppresses the user query
when the query text is exactly `"continue"`. -/
def continueCheckQuery (query : Option String) (hasFrontendToolCallRes : Bool) : Option String :=
  if hasFrontendToolCallRes ∧ query = some "continue" then none else query

/-- Route lines 427-443: the user turn is persisted exactly when the query
that survived `continueCheckQuery` is nonempty after trimming. -/
def serverPersistsUserTurn (query : Option String) (hasFrontendToolCallRes : Bool) : Bool :=
  match continueCheckQuery query hasFrontendToolCallRes with
  | none => false
  | some q => ¬ (jsTrim q = "")

/-- The shape of the persisted user turn: `saveMessage(chatId, "user",
query, [{type: "text", text: query}], null)` always stores role `"user"`. -/
def persistedUserTurn (id q : String) : Msg := ⟨id, "user", [.text q]⟩

/-- Shared constant from `src/lib/constants.ts`. -/
def AUTH_ALERT_MESSAGE_THRESHOLD : Nat := 2

/-- The alert block appended to the user query (route lines 459-462). -/
def authAlertText : String :=
  "\n\n<<<<<====== Alert =======>>>>>>>>>\nUser is not Authenticated\n<<<<<====== Alert =======>>>>>>>>>"

/-- JS truthiness of a nullable string (Clerk's `userId`, the session id):
`null` and the empty string are falsy. -/
def jsOptTruthy : Option String → Bool
  | none => false
  | some s => !(s == "")

/-- Route lines 423-425: number of already persisted user turns, counted
before the incoming turn is saved. -/
def existingUserCountOf (dbMessages : List Msg) : Nat :=
  (dbMessages.filter (fun m => m.role = "user")).length

/-- Route lines 455-464: the user content sent to the model, with the
auth-required marker appended exactly when `existingUserCount > 2 && !userId`. -/
def injectedUserQuery (query : String) (existingUserCount : Nat) (userId : Option String) :
    String :=
  if 2 < existingUserCount ∧ ¬ jsOptTruthy userId then query ++ authAlertText else query

/-- A fresh anonymous chat driven turn by turn: before each turn the
orchestrator counts the persisted user turns, builds the (possibly
alert-carrying) model query, then persists the user turn and the assistant
reply; the list of model queries is returned in order. -/
def runAnonChat : List String → List Msg → List String
  | [], _ => []
  | q :: rest, db =>
    injectedUserQuery q (existingUserCountOf db) none ::
      runAnonChat rest (db ++ [⟨"", "user", [.text q]⟩, ⟨"", "assistant", [.text ""]⟩])

/-! ## Tool-call dispatch and dedup guard (page.tsx lines 303-392) -/

/-- The `useChat` stream status values relevant to the guard. -/
inductive ChatStatus where
  | ready
  | streaming
  | submitted
  | errorStatus
deriving DecidableEq

/-- The per-view mutable refs of the dispatch guard. -/
structure GuardState where
  processedIds : List String
  processedHashes : List String
  inFlight : Option String
  lastStatus : ChatStatus
  isSendingToolResult : Bool
deriving DecidableEq

/-- One transcript update delivered to the guard effect: the message list,
the stream status, and whether the frontend tools object is available. -/
structure StepInput where
  msgs : List Msg
  status : ChatStatus
  toolsLoaded : Bool

/-- A dispatched tool execution: which assistant turn triggered it, the
fingerprint recorded for it, and the directive payload. -/
structure Dispatch where
  turnId : String
  fingerprint : String
  toolNameJson : Json
  toolArgs : Json

/-- JS `[...messages].reverse().find(m => m.role === "assistant")`. -/
def lastAssistant (msgs : List Msg) : Option Msg :=
  msgs.reverse.find? (fun m => m.role == "assistant")

/-- The directive of a structured payload:
`const ftc = structured?.frontend_tool_call ?? null` followed by the
`!ftc?.tool_name` guard: a dispatch happens only when the field is present
and its `tool_name` is truthy. -/
def directiveOf (structured : Option Json) : Option (Json × Json) :=
  match structured with
  | none => none
  | some v =>
    match jsGetField v "frontend_tool_call" with
    | none => none
    | some ftc =>
      match jsGetField ftc "tool_name" with
      | none => none
      | some tn =>
        if jsTruthy tn then some (tn, (jsGetField ftc "tool_args").getD Json.null)
        else none

/-- The guard state after a skipping branch: every early return of the
effect updates `lastStatusRef` only. -/
def skipUpdate (st : GuardState) (inp : StepInput) : GuardState :=
  { st with lastStatus := inp.status }

/-- One run of the auto-dispatch effect (page.tsx lines 303-392) on one
transcript update, returning the new guard state and the dispatched tool
execution, if any. -/
def stepGuard (st : GuardState) (inp : StepInput) : GuardState × Option Dispatch :=
  if ¬ inp.toolsLoaded ∨ inp.msgs.isEmpty then (skipUpdate st inp, none)
  else if st.isSendingToolResult then (skipUpdate st inp, none)
  else
    let isLive := inp.status = ChatStatus.streaming ∨ inp.status = ChatStatus.submitted
    let justFinished :=
      (st.lastStatus = ChatStatus.streaming ∨ st.lastStatus = ChatStatus.submitted) ∧
        inp.status = ChatStatus.ready
    if ¬ (isLive ∨ justFinished) then (skipUpdate st inp, none)
    else
      match lastAssistant inp.msgs with
      | none => (skipUpdate st inp, none)
      | some la =>
        if la.id ∈ st.processedIds then (skipUpdate st inp, none)
        else if contentHash la ∈ st.processedHashes then (skipUpdate st inp, none)
        else if st.inFlight = some la.id then (skipUpdate st inp, none)
        else
          match directiveOf (extractStructuredFromAssistant la.parts) with
          | none =>
            if inp.status = ChatStatus.ready then
              ({ st with
                  processedIds := la.id :: st.processedIds,
                  processedHashes := contentHash la :: st.processedHashes,
                  lastStatus := inp.status }, none)
            else (skipUpdate st inp, none)
          | some (tn, args) =>
            ({ st with
                inFlight := some la.id,
                processedIds := la.id :: st.processedIds,
                processedHashes := contentHash la :: st.processedHashes,
                lastStatus := inp.status },
              some ⟨la.id, contentHash la, tn, args⟩)

/-- Iterate the guard over a sequence of transcript updates, collecting
every dispatched execution. -/
def runGuard (st : GuardState) : List StepInput → GuardState × List Dispatch
  | [] => (st, [])
  | inp :: rest =>
    let out := stepGuard st inp
    let next := runGuard out.1 rest
    (next.1, out.2.toList ++ next.2)

/-- The at-most-once continuation guard of `executeFrontendToolCall`
(page.tsx lines 265-267): a tool-call id already in the sent set is
skipped, otherwise it is recorded. -/
def contGuardStep (sent : List String) (toolCallId : String) : List String × Bool :=
  if toolCallId ∈ sent then (sent, false) else (toolCallId :: sent, true)

/-- The dedup-relevant portion of `executeFrontendToolCall` (page.tsx lines
259-276): derive the tool-call id from the assistant turn id, return early
when a continuation was already sent for it, and otherwise record the id
(before the tool body runs) and execute the tool. -/
def executeFrontendToolCallModel {α : Type} (sent : List String)
    (assistantMessageId toolName : String)
    (runTool : Unit → α) : List String × Option α :=
  let toolCallId := generateToolCallId "frontend" toolName assistantMessageId
  if toolCallId ∈ sent then (sent, none)
  else (toolCallId :: sent, some (runTool ()))

/-! ## Frontend tool registry and the `login_user_verify` handler
(`src/hooks/use-chat-frontend-tools.ts`) -/

inductive AuthFlow where
  | SIGN_IN
  | SIGN_UP
deriving DecidableEq

inductive AuthStep where
  | IDLE
  | CODE_SENT
  | DONE
deriving DecidableEq

/-- The caller-side auth-flow state held by the hook. -/
structure AuthState where
  step : AuthStep
  flow : Option AuthFlow
  email : Option String
deriving DecidableEq

/-- Result values of the registry tools: `{ok: true, ...}` or
`{ok: false, error, code?}`. -/
inductive ToolResult where
  | okAuthenticated
  | okAskCode (flow : AuthFlow)
  | okResent
  | err (error : String) (code : Option String)
deriving DecidableEq

/-- Outcome of a Clerk `attemptFirstFactor` /
`attemptEmailAddressVerification` call, supplied as an oracle: a response
with a status and optional created session, or a thrown error message. -/
inductive ClerkOutcome where
  | ok (status : String) (createdSessionId : Option String)
  | threw (msg : String)
deriving DecidableEq

/-- The registry entries declared by the `tools` object of
`useChatFrontendTools` (hook lines 79-309), in source order, with their
descriptions. -/
def frontendToolsRegistry : List (String × String) :=
  [("login_user_start",
    "Start OTP login: try sign-in first; if it fails, fallback to sign-up. Sends a code to the email."),
   ("login_user_verify",
    "Verify OTP code and log the user in (setActive) if successful."),
   ("login_user_resend", "Resend OTP for the current login flow."),
   ("login_user_status", "Return current auth flow state for debugging/agent planning.")]

/-- The registered tool names, in declaration order. -/
def registeredToolNames : List String := frontendToolsRegistry.map (fun kv => kv.1)

/-- Embedding of the `login_user_verify` execute handler (hook lines
152-236). `loaded` and `clerkInit` model the two Clerk-availability guards;
the Clerk attempt outcomes for the two flows are oracle inputs. The `code`
argument is forwarded to Clerk and does not influence the embedded control
flow beyond that. -/
def loginUserVerifyExecute (loaded clerkInit : Bool) (st : AuthState) (code : String)
    (signInOutcome signUpOutcome : ClerkOutcome) : ToolResult × AuthState :=
  if ¬ loaded then (.err "Clerk not loaded yet." (some "CLERK_NOT_LOADED"), st)
  else if ¬ clerkInit then (.err "Clerk not initialized." (some "CLERK_NOT_INITIALIZED"), st)
  else if st.step ≠ AuthStep.CODE_SENT ∨ st.flow = none ∨ jsOptTruthy st.email = false then
    (.err "Login not started. Ask for email first." (some "NO_ACTIVE_FLOW"), st)
  else
    match st.flow with
    | some AuthFlow.SIGN_IN =>
      match signInOutcome with
      | .ok status createdSessionId =>
        if status = "complete" ∧ jsOptTruthy createdSessionId then
          (.okAuthenticated, { st with step := AuthStep.DONE })
        else
          (.err ("Sign-in not complete (status: " ++ status ++ ").")
            (some (if status = "needs_second_factor" then "NEEDS_2FA"
                   else "SIGNIN_NOT_COMPLETE")), st)
      | .threw msg => (.err msg (some "VERIFY_FAILED"), st)
    | _ =>
      match signUpOutcome with
      | .ok status createdSessionId =>
        if status = "complete" ∧ jsOptTruthy createdSessionId then
          (.okAuthenticated, { st with step := AuthStep.DONE })
        else
          (.err ("Sign-up not complete (status: " ++ status ++ ").")
            (some (if status = "missing_requirements" then "MISSING_REQUIREMENTS"
                   else "SIGNUP_NOT_COMPLETE")), st)
      | .threw msg => (.err msg (some "VERIFY_FAILED"), st)

/-! ## Chat ownership (`verifyChatOwnership` in `src/modules/chat/server.ts`) -/

/-- A row of the `chats` table: owner is an authenticated user id or an
anonymous session id. -/
structure ChatRow where
  id : String
  title : String
  userId : Option String
  sessionId : Option String
deriving DecidableEq

/-- Result of `verifyChatOwnership`. -/
inductive VerifyResult where
  | ok (chat : ChatRow)
  | failure (error : String)
deriving DecidableEq

/-- Embedding of `verifyChatOwnership(chatId, userId, sessionId)`; the
database lookup `select ... where id = chatId limit 1` is modelled by a
`find?` over the supplied table rows. -/
def verifyChatOwnership (chatId : String) (userId sessionId : Option String)
    (dbChats : List ChatRow) : VerifyResult :=
  if jsOptTruthy userId = false ∧ jsOptTruthy sessionId = false then
    .failure "Unauthorized - no user or session"
  else if chatId = "" then .failure "chatId is required"
  else
    match dbChats.find? (fun c => c.id == chatId) with
    | none => .failure "Chat not found"
    | some chat =>
      if jsOptTruthy userId = true ∧ chat.userId ≠ userId then
        .failure "Chat access denied"
      else if jsOptTruthy userId = false ∧ chat.sessionId ≠ sessionId then
        .failure "Chat access denied"
      else .ok chat

/-! ## Concrete states used by witnesses and counterexamples -/

/-- A structured payload carrying a `login_user_start` directive. -/
def ftcDirectiveObj : Json :=
  Json.obj [("result", Json.str "Sending code"),
            ("frontend_tool_call",
              Json.obj [("tool_name", Json.str "login_user_start"),
                        ("tool_args", Json.obj [("email", Json.str "user@example.com"),
                                                ("code", Json.null)])])]

/-- An assistant turn whose structured part carries the directive above. -/
def turnBMsg : Msg := ⟨"turnB", "assistant", [MsgPart.objectPart ftcDirectiveObj]⟩

/-- A guard state with a dispatch in flight for turn `turnA`. -/
def stInFlightA : GuardState := ⟨[], [], some "turnA", ChatStatus.ready, false⟩

/-- A transcript update presenting the directive-carrying turn `turnB`
while streaming. -/
def inpTurnB : StepInput := ⟨[turnBMsg], ChatStatus.streaming, true⟩

/-- A guard state with a dispatch in flight for `turnB` itself. -/
def stInFlightB : GuardState := ⟨[], [], some "turnB", ChatStatus.ready, false⟩

/-- A guard state that has already settled assistant turn `a1`. -/
def stSettledA1 : GuardState := ⟨["a1"], ["assistant:done"], none, ChatStatus.ready, false⟩

/-- A transcript update re-presenting the settled turn `a1`. -/
def inpRepresentA1 : StepInput :=
  ⟨[⟨"a1", "assistant", [MsgPart.text "done"]⟩], ChatStatus.streaming, true⟩

/-- The `login_user_verify` execute body run from the idle auth state
(no prior `login_user_start`), with arbitrary Clerk oracles. -/
def verifyNoFlowTool : Unit → ToolResult := fun _ =>
  (loginUserVerifyExecute true true ⟨AuthStep.IDLE, none, none⟩ "123456"
    (ClerkOutcome.threw "unused") (ClerkOutcome.threw "unused")).1

/-! ## Claim theorems -/

/-- C1 (counterexample): in a fresh anonymous chat the 3rd user turn is
sent to the model unmodified — the orchestrator does not inject the
auth-required marker on the 3rd turn, because only 2 prior user turns are
persisted at that point and the route requires strictly more than 2. -/
theorem authAlert_third_turn_counterexample :
    runAnonChat ["q1", "q2", "q3"] [] = ["q1", "q2", "q3"] ∧
    injectedUserQuery "q3" 2 none = "q3" ∧
    "q3".length < ("q3" ++ authAlertText).length := by
  refine ⟨by decide, by decide, ?_⟩
  rw [string_length_append]
  decide

theorem existingUserCountOf_append_turn (db : List Msg) (q : String) :
    existingUserCountOf
        (db ++ [⟨"", "user", [MsgPart.text q]⟩, ⟨"", "assistant", [MsgPart.text ""]⟩]) =
      existingUserCountOf db + 1 := by
  unfold existingUserCountOf
  rw [List.filter_append, List.length_append]
  norm_num [List.filter]
  rfl

theorem runAnonChat_getElem (qs : List String) : ∀ (db : List Msg) (n : Nat),
    (runAnonChat qs db)[n]? =
      (qs[n]?).map (fun q => injectedUserQuery q (existingUserCountOf db + n) none) := by
  induction qs with
  | nil => intro db n; simp [runAnonChat]
  | cons q rest ih =>
    intro db n
    cases n with
    | zero => simp [runAnonChat]
    | succ k =>
      simp only [runAnonChat, List.getElem?_cons_succ]
      rw [ih, existingUserCountOf_append_turn]
      have harith : existingUserCountOf db + 1 + k = existingUserCountOf db + (k + 1) := by
        omega
      simp only [harith]

/-- C1 (amended): the auth-required marker is appended to the outgoing user
content exactly when the number of previously persisted user turns exceeds
the shared threshold (2) while the caller has no authenticated user id; in
a fresh anonymous chat this first happens on the 4th user turn (prior
count 3), not on the 3rd. -/
theorem authAlert_injection_spec :
    (∀ (q : String) (c : Nat) (uid : Option String),
      injectedUserQuery q c uid =
        if AUTH_ALERT_MESSAGE_THRESHOLD < c ∧ ¬ jsOptTruthy uid
        then q ++ authAlertText else q) ∧
    (∀ (qs : List String) (n : Nat),
      (runAnonChat qs [])[n]? =
        (qs[n]?).map (fun q => if 2 < n then q ++ authAlertText else q)) ∧
    runAnonChat ["t1", "t2", "t3", "t4"] [] = ["t1", "t2", "t3", "t4" ++ authAlertText] := by
  refine ⟨fun q c uid => rfl, fun qs n => ?_, by decide⟩
  rw [runAnonChat_getElem]
  have hfun : ∀ q : String,
      injectedUserQuery q (existingUserCountOf [] + n) none =
        if 2 < n then q ++ authAlertText else q := by
    intro q
    simp [injectedUserQuery, existingUserCountOf, jsOptTruthy]
  simp only [hfun]

/-- C2 (code bug, evaluated at the failing input): the continuation
sentinel `"__internal_continue__"` is persisted by the orchestrator as an
ordinary user turn (the route only suppresses the literal `"continue"`),
it is stored with role `"user"` (never `"tool"`), and after a reload —
where the suppress-next flag is disarmed and the hidden-id set is empty —
the visibility filter and reconciler display the sentinel turn. -/
theorem sentinel_persisted_and_displayed :
    serverPersistsUserTurn (some internalContinueSentinel) true = true ∧
    (persistedUserTurn "m-cont" internalContinueSentinel).role = "user" ∧
    hideContinueStep false [] [persistedUserTurn "m-cont" internalContinueSentinel] =
      (false, []) ∧
    reconcile [] [persistedUserTurn "m-cont" internalContinueSentinel] =
      [persistedUserTurn "m-cont" internalContinueSentinel] := by
  exact ⟨by decide, rfl, rfl, rfl⟩

/-- C9 (counterexample): the frontend tool registry declares a fourth tool,
`login_user_status`, so the set of registered names is not the claimed
three-element set. -/
theorem registry_four_tools_counterexample :
    "login_user_status" ∈ registeredToolNames ∧ registeredToolNames.length = 4 := by
  decide

/-- C9 (amended): the registry declares exactly four tools: the login-start,
login-verify and login-resend actions plus the `login_user_status`
debugging query, in this declaration order. -/
theorem registry_names_spec :
    registeredToolNames =
      ["login_user_start", "login_user_verify", "login_user_resend", "login_user_status"] := rfl

/-- C10 (confirmed): when the caller has an authenticated (truthy) user id,
`verifyChatOwnership` is independent of the supplied session id — any two
calls differing only in session id return the same result — and, once the
chat row is found (nonempty chat id), it succeeds exactly when the stored
`userId` column equals the caller's user id. The session id is compared
only in the `!userId` branch, which is unreachable here. -/
theorem verifyChatOwnership_session_independent (chatId u : String) (hu : u ≠ "")
    (s1 s2 : Option String) (db : List ChatRow) :
    verifyChatOwnership chatId (some u) s1 db = verifyChatOwnership chatId (some u) s2 db ∧
    (∀ chat : ChatRow, db.find? (fun c => c.id == chatId) = some chat → chatId ≠ "" →
      (verifyChatOwnership chatId (some u) s1 db = VerifyResult.ok chat ↔
        chat.userId = some u)) := by
  have ht : jsOptTruthy (some u) = true := by
    simp [jsOptTruthy, hu]
  constructor
  · unfold verifyChatOwnership
    simp [ht]
  · intro chat hfind hc
    unfold verifyChatOwnership
    rw [if_neg (by simp [ht]), if_neg hc]
    simp only [hfind]
    by_cases how : chat.userId = some u
    · rw [if_neg (by simp [ht, how]), if_neg (by simp [ht])]
      simp [how]
    · rw [if_pos (by simp [ht, how])]
      simp [how]

/-- Witness for `verifyChatOwnership_session_independent` on a one-row
table owned by the caller, with two different session ids. -/
theorem verifyChatOwnership_session_independent_witness :
    ("user1" ≠ "") ∧
    (verifyChatOwnership "c1" (some "user1") none [⟨"c1", "t", some "user1", none⟩] =
        verifyChatOwnership "c1" (some "user1") (some "sess9")
          [⟨"c1", "t", some "user1", none⟩] ∧
      (∀ chat : ChatRow,
        [(⟨"c1", "t", some "user1", none⟩ : ChatRow)].find? (fun c => c.id == "c1") =
            some chat →
          "c1" ≠ "" →
          (verifyChatOwnership "c1" (some "user1") none [⟨"c1", "t", some "user1", none⟩] =
              VerifyResult.ok chat ↔
            chat.userId = some "user1"))) :=
  ⟨by decide,
    verifyChatOwnership_session_independent "c1" "user1" (by decide) none (some "sess9")
      [⟨"c1", "t", some "user1", none⟩]⟩

/-- C5 (counterexample): dispatching `login_user_verify` with no prior
`login_user_start` (idle auth state) does return the `NO_ACTIVE_FLOW`
error, but the dispatch guard's executed-tool-call-id set IS mutated: the
generated id is added to the empty set before the tool body runs, so the
claimed non-mutation is false. -/
theorem verify_mutates_executed_set_counterexample :
    executeFrontendToolCallModel [] "a1" "login_user_verify" verifyNoFlowTool =
      ([generateToolCallId "frontend" "login_user_verify" "a1"],
        some (ToolResult.err "Login not started. Ask for email first."
          (some "NO_ACTIVE_FLOW"))) ∧
    ([] : List String).length <
      (executeFrontendToolCallModel [] "a1" "login_user_verify" verifyNoFlowTool).1.length := by
  exact ⟨rfl, by decide⟩

/-- C5 (amended): with Clerk loaded and initialized, invoking the
`login_user_verify` execute handler outside the code-sent state returns
`{ok:false, code:"NO_ACTIVE_FLOW"}` and leaves the auth state unchanged;
however, the dispatch that invoked it records the generated tool-call id in
the executed set before running the tool body (that insertion, not its
absence, is what guarantees at-most-once continuation). -/
theorem login_user_verify_no_active_flow (st : AuthState) (code : String)
    (o1 o2 : ClerkOutcome)
    (h : st.step ≠ AuthStep.CODE_SENT ∨ st.flow = none ∨ jsOptTruthy st.email = false) :
    loginUserVerifyExecute true true st code o1 o2 =
      (ToolResult.err "Login not started. Ask for email first." (some "NO_ACTIVE_FLOW"), st) ∧
    (∀ (sent : List String) (aid tn : String) (f : Unit → ToolResult),
      (executeFrontendToolCallModel sent aid tn f).1 =
        if generateToolCallId "frontend" tn aid ∈ sent then sent
        else generateToolCallId "frontend" tn aid :: sent) := by
  constructor
  · unfold loginUserVerifyExecute
    rw [if_neg (by simp), if_neg (by simp), if_pos h]
  · intro sent aid tn f
    unfold executeFrontendToolCallModel
    split <;> simp_all

/-- Witness for `login_user_verify_no_active_flow` at the idle auth state
with a concrete code and Clerk oracles. -/
theorem login_user_verify_no_active_flow_witness :
    ((AuthState.mk AuthStep.IDLE none none).step ≠ AuthStep.CODE_SENT ∨
      (AuthState.mk AuthStep.IDLE none none).flow = none ∨
      jsOptTruthy (AuthState.mk AuthStep.IDLE none none).email = false) ∧
    (loginUserVerifyExecute true true ⟨AuthStep.IDLE, none, none⟩ "123456"
        (ClerkOutcome.threw "x") (ClerkOutcome.threw "x") =
      (ToolResult.err "Login not started. Ask for email first." (some "NO_ACTIVE_FLOW"),
        ⟨AuthStep.IDLE, none, none⟩) ∧
    (∀ (sent : List String) (aid tn : String) (f : Unit → ToolResult),
      (executeFrontendToolCallModel sent aid tn f).1 =
        if generateToolCallId "frontend" tn aid ∈ sent then sent
        else generateToolCallId "frontend" tn aid :: sent)) :=
  ⟨by decide,
    login_user_verify_no_active_flow ⟨AuthStep.IDLE, none, none⟩ "123456"
      (ClerkOutcome.threw "x") (ClerkOutcome.threw "x") (by decide)⟩

/-- C8 (counterexample): with a dispatch already in flight for `turnA`, a
transcript update whose newest assistant turn is the different, unhandled,
directive-carrying `turnB` is NOT skipped: the guard dispatches `turnB`
and overwrites the in-flight marker, so a second tool execution can become
active while the first is still running. -/
theorem inflight_different_turn_counterexample :
    stInFlightA.inFlight = some "turnA" ∧
    (stepGuard stInFlightA inpTurnB).2 =
      some ⟨"turnB", "assistant:", Json.str "login_user_start",
        Json.obj [("email", Json.str "user@example.com"), ("code", Json.null)]⟩ ∧
    (stepGuard stInFlightA inpTurnB).1.inFlight = some "turnB" := by
  exact ⟨rfl, rfl, rfl⟩

/-- C8 (amended): the in-flight marker is a re-entry guard for a single
turn: whenever the newest assistant turn is the one already marked in
flight, the guard dispatches nothing. (A different assistant turn is not
blocked by the marker, as the counterexample shows, so the guard does not
enforce a global at-most-one-active-execution property.) -/
theorem inflight_same_turn_skipped (st : GuardState) (inp : StepInput) (m : Msg)
    (hla : lastAssistant inp.msgs = some m) (hin : st.inFlight = some m.id) :
    (stepGuard st inp).2 = none := by
  unfold stepGuard
  rw [hla]
  dsimp only
  by_cases h1 : ¬ inp.toolsLoaded ∨ inp.msgs.isEmpty
  · rw [if_pos h1]
  · rw [if_neg h1]
    by_cases h2 : st.isSendingToolResult
    · rw [if_pos h2]
    · rw [if_neg h2]
      by_cases h3 : ¬ ((inp.status = ChatStatus.streaming ∨ inp.status = ChatStatus.submitted) ∨
          ((st.lastStatus = ChatStatus.streaming ∨ st.lastStatus = ChatStatus.submitted) ∧
            inp.status = ChatStatus.ready))
      · rw [if_pos h3]
      · rw [if_neg h3]
        by_cases h4 : m.id ∈ st.processedIds
        · rw [if_pos h4]
        · rw [if_neg h4]
          by_cases h5 : contentHash m ∈ st.processedHashes
          · rw [if_pos h5]
          · rw [if_neg h5, if_pos hin]

/-- Witness for `inflight_same_turn_skipped`: re-presenting `turnB` while
its own dispatch is in flight yields no dispatch. -/
theorem inflight_same_turn_skipped_witness :
    lastAssistant inpTurnB.msgs = some turnBMsg ∧
    stInFlightB.inFlight = some turnBMsg.id ∧
    (stepGuard stInFlightB inpTurnB).2 = none :=
  ⟨rfl, rfl, inflight_same_turn_skipped stInFlightB inpTurnB turnBMsg rfl rfl⟩

/-! ### Reconciler idempotence (C7) -/

theorem dedupAux_subset (l : List Msg) : ∀ (s1 s2 : List String),
    ∀ m ∈ dedupAux s1 s2 l, m ∈ l := by
  induction l with
  | nil => intro s1 s2 m hm; simp [dedupAux] at hm
  | cons x rest ih =>
    intro s1 s2 m hm
    simp only [dedupAux] at hm
    by_cases h1 : x.id ∈ s1
    · rw [if_pos h1] at hm
      exact List.mem_cons_of_mem x (ih _ _ m hm)
    · rw [if_neg h1] at hm
      by_cases h2 : x.role = "assistant"
      · rw [if_pos h2] at hm
        by_cases h3 : contentHash x ∈ s2
        · rw [if_pos h3] at hm
          exact List.mem_cons_of_mem x (ih _ _ m hm)
        · rw [if_neg h3] at hm
          rcases List.mem_cons.mp hm with hx | hx
          · exact hx ▸ List.mem_cons_self x rest
          · exact List.mem_cons_of_mem x (ih _ _ m hx)
      · rw [if_neg h2] at hm
        rcases List.mem_cons.mp hm with hx | hx
        · exact hx ▸ List.mem_cons_self x rest
        · exact List.mem_cons_of_mem x (ih _ _ m hx)

theorem dedupAux_stable (l : List Msg) : ∀ (s1 s2 t1 t2 : List String),
    (∀ x ∈ s1, x ∈ t1) → (∀ x ∈ s2, x ∈ t2) →
    dedupAux s1 s2 (dedupAux t1 t2 l) = dedupAux t1 t2 l := by
  induction l with
  | nil => intro s1 s2 t1 t2 _ _; simp [dedupAux]
  | cons x rest ih =>
    intro s1 s2 t1 t2 hsub1 hsub2
    simp only [dedupAux]
    by_cases h1 : x.id ∈ t1
    · rw [if_pos h1]
      exact ih s1 s2 t1 t2 hsub1 hsub2
    · rw [if_neg h1]
      have hxid1 : x.id ∉ s1 := fun hx => h1 (hsub1 _ hx)
      by_cases h2 : x.role = "assistant"
      · rw [if_pos h2]
        by_cases h3 : contentHash x ∈ t2
        · rw [if_pos h3]
          exact ih s1 s2 (x.id :: t1) t2
            (fun y hy => List.mem_cons_of_mem _ (hsub1 y hy)) hsub2
        · rw [if_neg h3]
          have hxh2 : contentHash x ∉ s2 := fun hx => h3 (hsub2 _ hx)
          simp only [dedupAux]
          rw [if_neg hxid1, if_pos h2, if_neg hxh2]
          congr 1
          exact ih (x.id :: s1) (contentHash x :: s2) (x.id :: t1) (contentHash x :: t2)
            (fun y hy => by
              rcases List.mem_cons.mp hy with hy | hy
              · exact hy ▸ List.mem_cons_self _ _
              · exact List.mem_cons_of_mem _ (hsub1 y hy))
            (fun y hy => by
              rcases List.mem_cons.mp hy with hy | hy
              · exact hy ▸ List.mem_cons_self _ _
              · exact List.mem_cons_of_mem _ (hsub2 y hy))
      · rw [if_neg h2]
        simp only [dedupAux]
        rw [if_neg hxid1, if_neg h2]
        congr 1
        exact ih (x.id :: s1) s2 (x.id :: t1) t2
          (fun y hy => by
            rcases List.mem_cons.mp hy with hy | hy
            · exact hy ▸ List.mem_cons_self _ _
            · exact List.mem_cons_of_mem _ (hsub1 y hy))
          hsub2

/-- C7 (confirmed): the message-stream reconciler — hidden-id filtering
followed by duplicate removal by turn id and, for assistant turns, by
content fingerprint, keeping first occurrences — is idempotent: running it
twice over any transcript with the same hidden-id set equals running it
once. -/
theorem reconcile_idem (hidden : List String) (msgs : List Msg) :
    reconcile hidden (reconcile hidden msgs) = reconcile hidden msgs := by
  unfold reconcile
  have hfilter : filterHidden hidden (dedupAux [] [] (filterHidden hidden msgs)) =
      dedupAux [] [] (filterHidden hidden msgs) := by
    unfold filterHidden
    apply List.filter_eq_self.mpr
    intro m hm
    have hmem := dedupAux_subset _ [] [] m hm
    unfold filterHidden at hmem
    exact (List.mem_filter.mp hmem).2
  rw [hfilter]
  exact dedupAux_stable _ [] [] [] [] (fun x hx => hx) (fun x hx => hx)

/-! ### Extractor safety (C6) -/

theorem scanCandidates_obj : ∀ (fuel : Nat) (cs : List Char) (fv : Option Json),
    (∀ w, fv = some w → isJsObject w = true) →
    ∀ v, scanCandidates fuel cs fv = some v → isJsObject v = true := by
  intro fuel
  induction fuel with
  | zero => intro cs fv hfv v h; exact hfv v h
  | succ f ih =>
    intro cs fv hfv v h
    unfold scanCandidates at h
    cases hdrop : dropToBrace cs with
    | none =>
      rw [hdrop] at h
      exact hfv v h
    | some suffix =>
      rw [hdrop] at h
      dsimp only at h
      cases hbs : braceScan suffix 0 [] with
      | none =>
        rw [hbs] at h
        exact hfv v h
      | some pr =>
        rw [hbs] at h
        dsimp only at h
        cases hp : jsonParse (String.mk pr.1) with
        | none =>
          rw [hp] at h
          exact ih _ _ hfv v h
        | some w =>
          rw [hp] at h
          dsimp only at h
          by_cases hobj : isJsObject w = true
          · rw [if_pos hobj] at h
            by_cases hftc :
                ((jsGetField w "frontend_tool_call").map jsTruthy).getD false = true
            · rw [if_pos hftc] at h
              cases h
              exact hobj
            · rw [if_neg hftc] at h
              refine ih _ _ ?_ v h
              intro w2 hw2
              cases hfv0 : fv with
              | some fv1 =>
                rw [hfv0] at hw2
                cases hw2
                exact hfv _ (by rw [hfv0])
              | none =>
                rw [hfv0] at hw2
                cases hw2
                exact hobj
          · rw [if_neg hobj] at h
            exact ih _ _ hfv v h

/-- C6 (confirmed): the brace-scanning structured-payload extractor is a
total function on arbitrary text (it terminates and cannot throw on any
input, including malformed streaming fragments), it is deterministic —
re-running it on the same final text gives the same result — and it
returns either `none` or a value that passed the
`parsed && typeof parsed === "object"` check, i.e. a syntactically valid
parsed JSON object. -/
theorem extractor_total_deterministic (s : String) :
    extractStructuredFromText s = extractStructuredFromText s ∧
    (∀ v, extractStructuredFromText s = some v → isJsObject v = true) := by
  refine ⟨rfl, ?_⟩
  intro v h
  simp only [extractStructuredFromText] at h
  split at h
  · exact absurd h (by simp)
  · exact scanCandidates_obj _ _ none (fun w hw => by cases hw) v h

/-- Witness for `extractor_total_deterministic` on a streamed fragment
containing one syntactically valid candidate object. -/
theorem extractor_total_deterministic_witness :
    extractStructuredFromText "x \x7b\x7d y" = some (Json.obj []) ∧
    isJsObject (Json.obj []) = true :=
  ⟨rfl, (extractor_total_deterministic "x \x7b\x7d y").2 (Json.obj []) rfl⟩

/-! ### Dispatch-guard idempotence (C4) -/

theorem stepGuard_main (st : GuardState) (inp : StepInput) :
    ∃ (newIds newHashes : List String),
      (stepGuard st inp).1.processedIds = newIds ++ st.processedIds ∧
      (stepGuard st inp).1.processedHashes = newHashes ++ st.processedHashes ∧
      (∀ d, (stepGuard st inp).2 = some d →
        d.turnId ∉ st.processedIds ∧ d.fingerprint ∉ st.processedHashes) := by
  unfold stepGuard skipUpdate
  by_cases h1 : ¬ inp.toolsLoaded ∨ inp.msgs.isEmpty
  · rw [if_pos h1]
    exact ⟨[], [], rfl, rfl, fun d hd => Option.noConfusion hd⟩
  · rw [if_neg h1]
    by_cases h2 : st.isSendingToolResult
    · rw [if_pos h2]
      exact ⟨[], [], rfl, rfl, fun d hd => Option.noConfusion hd⟩
    · rw [if_neg h2]
      by_cases h3 : ¬ ((inp.status = ChatStatus.streaming ∨ inp.status = ChatStatus.submitted) ∨
          ((st.lastStatus = ChatStatus.streaming ∨ st.lastStatus = ChatStatus.submitted) ∧
            inp.status = ChatStatus.ready))
      · rw [if_pos h3]
        exact ⟨[], [], rfl, rfl, fun d hd => Option.noConfusion hd⟩
      · rw [if_neg h3]
        cases hla : lastAssistant inp.msgs with
        | none =>
          exact ⟨[], [], rfl, rfl, fun d hd => Option.noConfusion hd⟩
        | some la =>
          dsimp only
          by_cases h4 : la.id ∈ st.processedIds
          · rw [if_pos h4]
            exact ⟨[], [], rfl, rfl, fun d hd => Option.noConfusion hd⟩
          · rw [if_neg h4]
            by_cases h5 : contentHash la ∈ st.processedHashes
            · rw [if_pos h5]
              exact ⟨[], [], rfl, rfl, fun d hd => Option.noConfusion hd⟩
            · rw [if_neg h5]
              by_cases h6 : st.inFlight = some la.id
              · rw [if_pos h6]
                exact ⟨[], [], rfl, rfl, fun d hd => Option.noConfusion hd⟩
              · rw [if_neg h6]
                cases hdir : directiveOf (extractStructuredFromAssistant la.parts) with
                | none =>
                  dsimp only
                  by_cases h7 : inp.status = ChatStatus.ready
                  · rw [if_pos h7]
                    exact ⟨[la.id], [contentHash la], rfl, rfl,
                      fun d hd => Option.noConfusion hd⟩
                  · rw [if_neg h7]
                    exact ⟨[], [], rfl, rfl, fun d hd => Option.noConfusion hd⟩
                | some pr =>
                  obtain ⟨tn, args⟩ := pr
                  dsimp only
                  refine ⟨[la.id], [contentHash la], rfl, rfl, ?_⟩
                  intro d hd
                  cases hd
                  exact ⟨h4, h5⟩

theorem stepGuard_mono (st : GuardState) (inp : StepInput) :
    (∀ x ∈ st.processedIds, x ∈ (stepGuard st inp).1.processedIds) ∧
    (∀ x ∈ st.processedHashes, x ∈ (stepGuard st inp).1.processedHashes) := by
  obtain ⟨ni, nh, hi, hh, _⟩ := stepGuard_main st inp
  rw [hi, hh]
  exact ⟨fun x hx => List.mem_append_right ni hx, fun x hx => List.mem_append_right nh hx⟩

theorem stepGuard_dispatch_fresh (st : GuardState) (inp : StepInput) (d : Dispatch)
    (h : (stepGuard st inp).2 = some d) :
    d.turnId ∉ st.processedIds ∧ d.fingerprint ∉ st.processedHashes := by
  obtain ⟨_, _, _, _, hfresh⟩ := stepGuard_main st inp
  exact hfresh d h

theorem runGuard_no_dispatch_of_processed : ∀ (inputs : List StepInput) (st : GuardState)
    (tid fp : String), tid ∈ st.processedIds → fp ∈ st.processedHashes →
    ∀ d ∈ (runGuard st inputs).2, d.turnId ≠ tid ∧ d.fingerprint ≠ fp := by
  intro inputs
  induction inputs with
  | nil =>
    intro st tid fp h1 h2 d hd
    simp [runGuard] at hd
  | cons inp rest ih =>
    intro st tid fp h1 h2 d hd
    simp only [runGuard] at hd
    rw [List.mem_append] at hd
    cases hd with
    | inl hdl =>
      cases hsg : (stepGuard st inp).2 with
      | none => rw [hsg] at hdl; simp at hdl
      | some d0 =>
        rw [hsg] at hdl
        have hdd : d = d0 := by simpa using hdl
        subst hdd
        have hfresh := stepGuard_dispatch_fresh st inp d hsg
        exact ⟨fun hcon => hfresh.1 (hcon ▸ h1), fun hcon => hfresh.2 (hcon ▸ h2)⟩
    | inr hdr =>
      have hmono := stepGuard_mono st inp
      exact ih (stepGuard st inp).1 tid fp (hmono.1 tid h1) (hmono.2 fp h2) d hdr

/-- C4 (confirmed): within one open conversation view, handling is
idempotent: from any guard state in which an assistant turn has been
evaluated and settled — its id is in the processed-id set and its
role+text-prefix fingerprint is in the processed-fingerprint set — no
sequence of further transcript updates can dispatch a tool execution for
that turn id or that fingerprint again; and the continuation guard never
sends a second continuation for a tool-call id already in the sent set. -/
theorem handled_turn_idempotent (st : GuardState) (inputs : List StepInput)
    (tid fp : String) (hid : tid ∈ st.processedIds) (hfp : fp ∈ st.processedHashes) :
    (∀ d ∈ (runGuard st inputs).2, d.turnId ≠ tid ∧ d.fingerprint ≠ fp) ∧
    (∀ (sent : List String) (toolCallId : String), toolCallId ∈ sent →
      contGuardStep sent toolCallId = (sent, false)) := by
  constructor
  · exact runGuard_no_dispatch_of_processed inputs st tid fp hid hfp
  · intro sent toolCallId hmem
    unfold contGuardStep
    rw [if_pos hmem]

/-- Witness for `handled_turn_idempotent`: re-presenting the settled turn
`a1` (same id and same fingerprint) during streaming dispatches nothing. -/
theorem handled_turn_idempotent_witness :
    ("a1" ∈ stSettledA1.processedIds) ∧ ("assistant:done" ∈ stSettledA1.processedHashes) ∧
    ((∀ d ∈ (runGuard stSettledA1 [inpRepresentA1]).2,
        d.turnId ≠ "a1" ∧ d.fingerprint ≠ "assistant:done") ∧
      (∀ (sent : List String) (toolCallId : String), toolCallId ∈ sent →
        contGuardStep sent toolCallId = (sent, false))) :=
  ⟨by decide, by decide,
    handled_turn_idempotent stSettledA1 [inpRepresentA1] "a1" "assistant:done"
      (by decide) (by decide)⟩
